import Mathlib

/-
Shallow embedding of the blark parsing core (`blark/parse.py` and the summary
lookup of `blark/sphinxdomain.py`).  Python exceptions are modelled as
`Except ParseError`; the module-level global `_PARSER` of `parse.py` is
modelled by explicit state passing of a `PState` value that also counts how
often the engine constructor (`new_parser`) has run.  External collaborators
(lark, pytmc, `blark.util`, `blark.transform`) are supplied as members of an
`Env` record of function parameters, exactly at the boundary where
`parse.py` calls them.
-/

namespace Blark

/-- Model of a Python exception raised or yielded by the parsing pipeline.
`fn` is an identifier annotation attribute if one was ever attached to the
exception object, and `traceback` is the `ex.traceback` attribute that
`parse_project` / `parse` set before yielding the exception. -/
structure ParseError where
  msg : String
  fn : Option String := none
  traceback : Option String := none
  deriving Repr, DecidableEq

/-- Model of a `lark.Lark` parser instance: an identity tag plus the
`parser.parse` behaviour (success gives a concrete-syntax tree, modelled as a
string payload; failure raises). -/
structure LarkParser where
  tag : Nat
  parseFun : String → Except ParseError String

/-- Model of the module-level mutable state of `blark/parse.py`: the global
`_PARSER` cache, plus an instrumentation counter of how many times the engine
constructor `new_parser` has been invoked. -/
structure PState where
  cache : Option LarkParser
  builds : Nat

/-- Model of `get_parser`: return the cached global parser, building it with
`new_parser` (whose deterministic result is the parameter `np`) only when the
global is unset.  Mirrors lines 47-53 of `parse.py`. -/
def getParser (np : LarkParser) : PState → PState × LarkParser
  | ⟨none, b⟩ => (⟨some np, b + 1⟩, np)
  | ⟨some p, b⟩ => (⟨some p, b⟩, p)

/-- Model of `DEFAULT_PREPROCESSORS = []` from `parse.py` line 56. -/
def DEFAULT_PREPROCESSORS : List (String → Except ParseError String) := []

/-- The preprocessor loop of `parse_source_code` (lines 97-99): each
preprocessor receives the previous stage's text; a raised exception
propagates. -/
def applyPreprocessors :
    List (String → Except ParseError String) → String → Except ParseError String
  | [], s => .ok s
  | p :: rest, s =>
    match p s with
    | .error e => .error e
    | .ok s2 => applyPreprocessors rest s2

/-- Model of one source item of a pytmc PLC project (an entry of
`dut_by_name` / `gvl_by_name` / `pou_by_name`): `hasGetSourceCode` models
`hasattr(source_item, "get_source_code")` and `sourceCode` the value that
accessor returns (`none` models Python `None`). -/
structure SourceItem where
  filename : String
  hasGetSourceCode : Bool
  sourceCode : Option String

/-- Model of one PLC inside a pytmc project. -/
structure Plc where
  dut_by_name : List (String × SourceItem)
  gvl_by_name : List (String × SourceItem)
  pou_by_name : List (String × SourceItem)

/-- Model of a parsed pytmc `.tsproj` project container. -/
structure Project where
  plcs : List Plc

/-- Result of `parse_source_code`: the transformed dataclasses when
`transform=True` (modelled as a string payload), otherwise the raw
`lark.Tree`. -/
inductive ParseResult where
  | transformed (code : String)
  | tree (t : String)
  deriving Repr, DecidableEq

instance {ε α : Type} [DecidableEq ε] [DecidableEq α] :
    DecidableEq (Except ε α) :=
  fun x y =>
    match x, y with
    | .ok a, .ok b =>
      if h : a = b then .isTrue (congrArg Except.ok h)
      else .isFalse fun hh => h (Except.ok.inj hh)
    | .ok _, .error _ => .isFalse fun hh => Except.noConfusion hh
    | .error _, .ok _ => .isFalse fun hh => Except.noConfusion hh
    | .error e, .error f =>
      if h : e = f then .isTrue (congrArg Except.error h)
      else .isFalse fun hh => h (Except.error.inj hh)

/-- External collaborators of `parse.py`, at exactly the call boundary the
source uses: `blark.util.find_and_clean_comments`, the
`GrammarTransformer(comments, fn, source_code).transform(tree)` call,
`blark.util.get_source_code`, `pytmc.parser.parse` and
`pytmc.parser.projects_from_solution`. -/
structure Env where
  find_and_clean_comments : String → Except ParseError (List String × String)
  grammarTransform : List String → String → String → String → Except ParseError String
  get_source_code : String → Except ParseError String
  read_project : String → Project
  projects_from_solution : String → List String

/-- Model of `parse_source_code` (lines 60-133 of `parse.py`), with the
module global threaded through as `st`.  The stages are: the preprocessor
loop, `find_and_clean_comments`, choosing the parser (the explicit argument
if given, else the shared global via `get_parser`), `parser.parse` (whose
exception is caught only to optionally print and is then re-raised
unchanged), and the grammar transform when `transform` is set.  Verbose
printing is pure I O and is not modelled. -/
def parse_source_code (env : Env) (np : LarkParser)
    (source_code : String) (fn : String)
    (preprocessors : List (String → Except ParseError String))
    (parser : Option LarkParser) (transform : Bool)
    (st : PState) : PState × Except ParseError ParseResult :=
  match applyPreprocessors preprocessors source_code with
  | .error e => (st, .error e)
  | .ok processed =>
    match env.find_and_clean_comments processed with
    | .error e => (st, .error e)
    | .ok (comments, processed2) =>
      let stp : PState × LarkParser :=
        match parser with
        | none => getParser np st
        | some p => (st, p)
      match stp.2.parseFun processed2 with
      | .error e => (stp.1, .error e)
      | .ok tree =>
        if transform then
          match env.grammarTransform comments fn source_code tree with
          | .error e => (stp.1, .error e)
          | .ok code => (stp.1, .ok (.transformed code))
        else (stp.1, .ok (.tree tree))

/-- Model of `parse_single_file` (lines 136-139): fetch the source text and
call `parse_source_code` with all defaults. -/
def parse_single_file (env : Env) (np : LarkParser) (fn : String)
    (st : PState) : PState × Except ParseError ParseResult :=
  match env.get_source_code fn with
  | .error e => (st, .error e)
  | .ok src => parse_source_code env np src fn DEFAULT_PREPROCESSORS none true st

/-- Model of Python `traceback.format_exc()` evaluated inside an `except`
block: a formatted traceback string for the caught exception. -/
def format_exc (e : ParseError) : String :=
  "Traceback (most recent call last): " ++ e.msg

/-- The mutation `ex.traceback = traceback.format_exc()` performed by
`parse_project` (lines 177-178) and `parse` (lines 205-206) on a caught
exception before yielding it. -/
def setTraceback (e : ParseError) : ParseError :=
  { e with traceback := some (format_exc e) }

/-- The per-item body of the `parse_project` loop (lines 164-179): skip the
item when it has no `get_source_code` accessor or when the retrieved text is
falsy (`None` or empty); otherwise parse it, yielding the filename paired
with the result, or with the caught exception after setting its traceback
attribute. -/
def process_source_item (env : Env) (np : LarkParser) (item : SourceItem)
    (st : PState) : PState × Option (String × Except ParseError ParseResult) :=
  if item.hasGetSourceCode = false then (st, none)
  else
    match item.sourceCode with
    | none => (st, none)
    | some src =>
      if src.isEmpty then (st, none)
      else
        match parse_source_code env np src item.filename DEFAULT_PREPROCESSORS none true st with
        | (st2, .ok res) => (st2, some (item.filename, .ok res))
        | (st2, .error e) => (st2, some (item.filename, .error (setTraceback e)))

/-- The inner loop of `parse_project` over the name/item pairs of one PLC:
the dictionary key is unused by the source (only `source_item` is), and each
item contributes at most one yielded pair. -/
def parse_project_items (env : Env) (np : LarkParser) :
    List (String × SourceItem) → PState →
      PState × List (String × Except ParseError ParseResult)
  | [], st => (st, [])
  | (_, item) :: rest, st =>
    match process_source_item env np item st with
    | (st2, none) => parse_project_items env np rest st2
    | (st2, some pair) =>
      match parse_project_items env np rest st2 with
      | (st3, outs) => (st3, pair :: outs)

/-- The `source_items` list built for one PLC (lines 159-163):
`dut_by_name`, then `gvl_by_name`, then `pou_by_name` items, in order. -/
def plc_source_items (plc : Plc) : List (String × SourceItem) :=
  plc.dut_by_name ++ plc.gvl_by_name ++ plc.pou_by_name

/-- The outer loop of `parse_project` over `project.plcs`. -/
def parse_project_core (env : Env) (np : LarkParser) :
    List Plc → PState → PState × List (String × Except ParseError ParseResult)
  | [], st => (st, [])
  | plc :: rest, st =>
    match parse_project_items env np (plc_source_items plc) st with
    | (st2, outs) =>
      match parse_project_core env np rest st2 with
      | (st3, outs2) => (st3, outs ++ outs2)

/-- Model of Python `str.lower()` on a single character (ASCII case). -/
def lowerChar (c : Char) : Char :=
  if c.isUpper then Char.ofNat (c.toNat + 32) else c

/-- Model of Python `str.lower()`. -/
def lowerString (s : String) : String :=
  ⟨s.data.map lowerChar⟩

/-- Split a character list on a separator; groups between separators, as in
Python `str.split(sep)`. -/
def splitOnChar (sep : Char) : List Char → List (List Char)
  | [] => [[]]
  | c :: rest =>
    let r := splitOnChar sep rest
    if c = sep then [] :: r
    else
      match r with
      | [] => [[c]]
      | g :: gs => (c :: g) :: gs

/-- Model of `pathlib.Path(p).suffix`: the final extension (with its dot) of
the last path component, empty when there is none or when the name is a bare
dotfile. -/
def pathSuffix (p : String) : String :=
  let base := (splitOnChar '/' p.data).getLastD []
  match splitOnChar '.' base with
  | [] => ""
  | [_] => ""
  | first :: rest =>
    if first = [] ∧ rest.length = 1 then "" else ⟨'.' :: rest.getLastD []⟩

/-- Model of the generator `parse_project` (lines 142-181): reject non
`.tsproj` paths with a `ValueError`, otherwise read the project container and
stream the per-unit results. -/
def parse_project (env : Env) (np : LarkParser) (path : String)
    (st : PState) :
    PState × Except ParseError (List (String × Except ParseError ParseResult)) :=
  if lowerString (pathSuffix path) = ".tsproj" then
    match parse_project_core env np (env.read_project path).plcs st with
    | (st2, outs) => (st2, .ok outs)
  else (st, .error { msg := "ValueError: Expected a .tsproj file" })

/-- The per-filename body of the top-level `parse` generator (lines
198-207): delegate `.tsproj` files to `parse_project`, parse anything else as
a single file, and turn a raised exception into a yielded
`(filename, exception)` pair after setting its traceback attribute. -/
def parse_one_file (env : Env) (np : LarkParser) (fn : String)
    (st : PState) : PState × List (String × Except ParseError ParseResult) :=
  if lowerString (pathSuffix fn) = ".tsproj" then
    match parse_project env np fn st with
    | (st2, .ok outs) => (st2, outs)
    | (st2, .error e) => (st2, [(fn, .error (setTraceback e))])
  else
    match parse_single_file env np fn st with
    | (st2, .ok r) => (st2, [(fn, .ok r)])
    | (st2, .error e) => (st2, [(fn, .error (setTraceback e))])

/-- Iterate `parse_one_file` over the expanded filename list. -/
def parse_files (env : Env) (np : LarkParser) :
    List String → PState → PState × List (String × Except ParseError ParseResult)
  | [], st => (st, [])
  | fn :: rest, st =>
    match parse_one_file env np fn st with
    | (st2, outs) =>
      match parse_files env np rest st2 with
      | (st3, outs2) => (st3, outs ++ outs2)

/-- The `filenames` list computed by the top-level `parse` generator (lines
188-196): a `.tsproj` path stands alone, a `.sln` path expands to its
contained project files, anything else is treated as a single source
file. -/
def parse_filenames (env : Env) (path : String) : List String :=
  if lowerString (pathSuffix path) = ".tsproj" then [path]
  else if lowerString (pathSuffix path) = ".sln" then
    env.projects_from_solution path
  else [path]

/-- Model of the top-level `parse` generator (lines 184-207): compute the
filename list, then process each file in turn. -/
def parse (env : Env) (np : LarkParser) (path : String)
    (st : PState) : PState × List (String × Except ParseError ParseResult) :=
  parse_files env np (parse_filenames env path) st

/-- Modelled from the spec: the `blark/summary.py` module (records
`FunctionBlockSummary`, `MethodSummary`, `ActionSummary` and
`CodeSummary.from_source`) is not part of the provided sources; per the
spec's Summary Builder contract it holds a name, its declaration blocks
retained verbatim, and the lists of method and action summaries. -/
structure FunctionBlockSummary where
  name : String
  declarations : List (String × String)
  methods : List String
  actions : List String
  deriving Repr, DecidableEq

/-- Modelled from the spec: `summary.CodeSummary` is a derived, read-only
index mapping fully-qualified function-block/program names to their
summaries, ordered by the source order they were walked in. -/
structure CodeSummary where
  function_blocks : List (String × FunctionBlockSummary)
  deriving Repr, DecidableEq

/-- Modelled from the spec: one declared item of a parsed source unit, as
seen by the Summary Builder walking the root AST. -/
inductive SourceDecl where
  | functionBlock (name : String) (declarations : List (String × String))
      (methods : List String) (actions : List String)
  | other (payload : String)
  deriving Repr, DecidableEq

/-- Modelled from the spec: the parsed source-unit value
(`tf.SourceCode`) consumed by `summarize`, holding the declared items in
source order. -/
structure SourceCode where
  items : List SourceDecl
  deriving Repr, DecidableEq

/-- Modelled from the spec: `summary.CodeSummary.from_source` walks the
root AST's declared function blocks into a flat by-name mapping, preserving
source order and keeping each declaration block verbatim; it is a pure
projection of its input. -/
def CodeSummary.from_source (code : SourceCode) : CodeSummary :=
  ⟨code.items.filterMap fun item =>
    match item with
    | .functionBlock n d m a => some (n, ⟨n, d, m, a⟩)
    | .other _ => none⟩

/-- Model of `summarize` (lines 252-253 of `parse.py`). -/
def summarize (code : SourceCode) : CodeSummary :=
  CodeSummary.from_source code

/-- Model of the Python dict lookup `item.function_blocks[name]` used by
`BlarkSphinxCache.find_by_name`: `none` models the `KeyError` branch. -/
def function_blocks_lookup (cs : CodeSummary) (name : String) :
    Option FunctionBlockSummary :=
  (cs.function_blocks.find? fun kv => kv.1 = name).map Prod.snd

/-- Model of `BlarkSphinxCache.find_by_name` (lines 131-137 of
`sphinxdomain.py`): walk the cached per-file summaries in insertion order,
return the first summary that knows the name, and raise a `KeyError` when
none does. -/
def find_by_name (cache : List (String × CodeSummary)) (name : String) :
    Except ParseError FunctionBlockSummary :=
  match cache with
  | [] => .error { msg := "KeyError: " ++ name ++ " not found" }
  | (_, item) :: rest =>
    match function_blocks_lookup item name with
    | some fb => .ok fb
    | none => find_by_name rest name

/-
Concrete instances used by witnesses and counterexamples: a parser that
fails exactly on the text "MALFORMED", and an environment whose comment
extractor and transformer always succeed.
-/

/-- A concrete parser instance: rejects the text MALFORMED, accepts
everything else. -/
def demoParser : LarkParser :=
  ⟨0, fun s =>
    if s = "MALFORMED" then .error { msg := "UnexpectedToken" }
    else .ok ("tree:" ++ s)⟩

/-- A concrete environment for witnesses: comment extraction and the grammar
transform always succeed, the container readers are trivial. -/
def demoEnv : Env where
  find_and_clean_comments s := .ok ([], s)
  grammarTransform _ _ _ tree := .ok ("ast:" ++ tree)
  get_source_code fn := .ok ("src:" ++ fn)
  read_project _ := ⟨[]⟩
  projects_from_solution _ := []

/-- A retrievable source item with the given filename and text. -/
def demoItem (fn text : String) : SourceItem :=
  ⟨fn, true, some text⟩

/-
Observation layer: the module global `_PARSER` is only ever written by
`get_parser`, which stores the result of `new_parser`; so the reachable
states are exactly those whose cache is unset or holds that parser.  Under
this invariant the outcome of a parse is a pure function of the inputs,
stated with `parse_source_code_result` below and proven equivalent to the
stateful model.
-/

/-- States of the module global reachable in a process whose
`new_parser` yields `np`: the cache is unset or holds `np`. -/
def Reachable (np : LarkParser) (st : PState) : Prop :=
  st.cache = none ∨ st.cache = some np

/-- The outcome of `parse_source_code` as a pure function of its inputs
(the global parser cache can only influence which `lark.Lark` instance is
used, and in reachable states that instance is `np` either way). -/
def parse_source_code_result (env : Env) (np : LarkParser)
    (source_code : String) (fn : String)
    (preprocessors : List (String → Except ParseError String))
    (transform : Bool) : Except ParseError ParseResult :=
  (parse_source_code env np source_code fn preprocessors (some np) transform
    ⟨none, 0⟩).2

/-- Retrievability test of the `parse_project` loop: the item has a
`get_source_code` accessor and the retrieved text is not falsy. -/
def retrievable (item : SourceItem) : Bool :=
  item.hasGetSourceCode &&
    (match item.sourceCode with
     | none => false
     | some s => !s.isEmpty)

/-- The single pair `parse_project` yields for a retrievable item: its
filename with the parse result, or with the caught error carrying the
formatted traceback. -/
def unit_pair (env : Env) (np : LarkParser) (item : SourceItem) :
    String × Except ParseError ParseResult :=
  match parse_source_code_result env np (item.sourceCode.getD "")
      item.filename DEFAULT_PREPROCESSORS true with
  | .ok res => (item.filename, .ok res)
  | .error e => (item.filename, .error (setTraceback e))

/-- The contribution of one source item to the `parse_project` stream:
nothing when the item is not retrievable, otherwise exactly its
`unit_pair`. -/
def item_output (env : Env) (np : LarkParser) (item : SourceItem) :
    Option (String × Except ParseError ParseResult) :=
  if retrievable item then some (unit_pair env np item) else none

/-- The outcome of `parse_single_file` as a pure function of its inputs
(in reachable states the shared parser is `np` either way): the error of
`get_source_code` when the text cannot be fetched, else the outcome of
parsing the fetched text with all defaults. -/
def parse_single_file_result (env : Env) (np : LarkParser) (fn : String) :
    Except ParseError ParseResult :=
  match env.get_source_code fn with
  | .error e => .error e
  | .ok src => parse_source_code_result env np src fn DEFAULT_PREPROCESSORS true

/-- Iterate `n` successive calls of `get_parser`, collecting every returned
parser instance; used to state the once-only initialization claim over an
arbitrary sequence of calls. -/
def getParser_calls (np : LarkParser) : Nat → PState → PState × List LarkParser
  | 0, st => (st, [])
  | n + 1, st =>
    match getParser np st with
    | (st2, p) =>
      match getParser_calls np n st2 with
      | (st3, ps) => (st3, p :: ps)

/-- All source items a project enumerates, across its PLCs in order. -/
def project_units (proj : Project) : List (String × SourceItem) :=
  proj.plcs.foldr (fun plc acc => plc_source_items plc ++ acc) []

/-- Lift a pure text-to-text preprocessor into the fallible model. -/
def liftPure (f : String → String) : String → Except ParseError String :=
  fun s => .ok (f s)

/-- A concrete environment whose project container holds three units, the
second of which has the malformed body rejected by `demoParser`. -/
def demoEnv3 : Env where
  find_and_clean_comments s := .ok ([], s)
  grammarTransform _ _ _ tree := .ok ("ast:" ++ tree)
  get_source_code fn := .ok ("src:" ++ fn)
  read_project _ :=
    ⟨[⟨[], [],
       [("U1", demoItem "U1.TcPOU" "okay1"),
        ("U2", demoItem "U2.TcPOU" "MALFORMED"),
        ("U3", demoItem "U3.TcPOU" "okay3")]⟩]⟩
  projects_from_solution _ := []

theorem getParser_snd_of_reachable (np : LarkParser) (st : PState)
    (h : Reachable np st) : (getParser np st).2 = np := by
  rcases st with ⟨_ | p, b⟩
  · rfl
  · cases h with
    | inl h => exact Option.noConfusion h
    | inr h => exact Option.some.inj h

theorem getParser_reachable (np : LarkParser) (st : PState)
    (h : Reachable np st) : Reachable np (getParser np st).1 := by
  rcases st with ⟨_ | p, b⟩
  · exact Or.inr rfl
  · cases h with
    | inl h => exact Option.noConfusion h
    | inr h => exact Or.inr h

theorem parse_source_code_some_fst (env : Env) (np : LarkParser)
    (src fn : String) (pre : List (String → Except ParseError String))
    (p : LarkParser) (tr : Bool) (st : PState) :
    (parse_source_code env np src fn pre (some p) tr st).1 = st := by
  unfold parse_source_code
  dsimp only
  repeat' split
  all_goals rfl

theorem parse_source_code_reachable (env : Env) (np : LarkParser)
    (src fn : String) (pre : List (String → Except ParseError String))
    (parser : Option LarkParser) (tr : Bool) (st : PState)
    (h : Reachable np st) :
    Reachable np (parse_source_code env np src fn pre parser tr st).1 := by
  unfold parse_source_code
  dsimp only
  repeat' split
  all_goals first
    | exact h
    | exact getParser_reachable np st h

theorem parse_source_code_none_snd (env : Env) (np : LarkParser)
    (src fn : String) (pre : List (String → Except ParseError String))
    (tr : Bool) (st : PState) (h : Reachable np st) :
    (parse_source_code env np src fn pre none tr st).2
      = parse_source_code_result env np src fn pre tr := by
  unfold parse_source_code_result parse_source_code
  dsimp only
  rw [getParser_snd_of_reachable np st h]
  repeat' split
  all_goals rfl

theorem process_source_item_snd (env : Env) (np : LarkParser)
    (item : SourceItem) (st : PState) (h : Reachable np st) :
    (process_source_item env np item st).2 = item_output env np item := by
  unfold process_source_item item_output retrievable unit_pair
  rcases item with ⟨fn, acc, src⟩
  cases acc with
  | false => rfl
  | true =>
    cases src with
    | none => rfl
    | some s =>
      dsimp only
      by_cases hs : s.isEmpty
      · simp [hs]
      · have hsnd := parse_source_code_none_snd env np s fn
          DEFAULT_PREPROCESSORS true st h
        cases hps : parse_source_code env np s fn DEFAULT_PREPROCESSORS none true st with
        | mk st2 r =>
          rw [hps] at hsnd
          dsimp at hsnd
          subst hsnd
          cases hr : parse_source_code_result env np s fn DEFAULT_PREPROCESSORS true <;>
            simp [hs, hr]

theorem process_source_item_reachable (env : Env) (np : LarkParser)
    (item : SourceItem) (st : PState) (h : Reachable np st) :
    Reachable np (process_source_item env np item st).1 := by
  unfold process_source_item
  rcases item with ⟨fn, acc, src⟩
  cases acc with
  | false => exact h
  | true =>
    cases src with
    | none => exact h
    | some s =>
      dsimp only
      by_cases hs : s.isEmpty
      · simp only [hs, if_pos]
        exact h
      · simp only [hs, if_neg, Bool.false_eq_true, not_false_iff]
        have hr := parse_source_code_reachable env np s fn
          DEFAULT_PREPROCESSORS none true st h
        cases hps : parse_source_code env np s fn DEFAULT_PREPROCESSORS none true st with
        | mk st2 r =>
          rw [hps] at hr
          cases r <;> exact hr

theorem parse_project_items_snd (env : Env) (np : LarkParser)
    (items : List (String × SourceItem)) (st : PState) (h : Reachable np st) :
    (parse_project_items env np items st).2
      = items.filterMap (fun kv => item_output env np kv.2) := by
  induction items generalizing st with
  | nil => rfl
  | cons kv rest ih =>
    obtain ⟨k, item⟩ := kv
    unfold parse_project_items
    have hsnd := process_source_item_snd env np item st h
    have hrea := process_source_item_reachable env np item st h
    cases hpi : process_source_item env np item st with
    | mk st2 out =>
      rw [hpi] at hsnd hrea
      dsimp at hsnd hrea
      cases out with
      | none =>
        dsimp
        rw [List.filterMap_cons, ← hsnd]
        exact ih st2 hrea
      | some pair =>
        dsimp
        cases hrest : parse_project_items env np rest st2 with
        | mk st3 outs =>
          have := ih st2 hrea
          rw [hrest] at this
          dsimp at this ⊢
          rw [List.filterMap_cons, ← hsnd, this]

theorem parse_project_items_reachable (env : Env) (np : LarkParser)
    (items : List (String × SourceItem)) (st : PState) (h : Reachable np st) :
    Reachable np (parse_project_items env np items st).1 := by
  induction items generalizing st with
  | nil => exact h
  | cons kv rest ih =>
    obtain ⟨k, item⟩ := kv
    unfold parse_project_items
    have hrea := process_source_item_reachable env np item st h
    cases hpi : process_source_item env np item st with
    | mk st2 out =>
      rw [hpi] at hrea
      dsimp at hrea
      cases out with
      | none => exact ih st2 hrea
      | some pair =>
        dsimp
        cases hrest : parse_project_items env np rest st2 with
        | mk st3 outs =>
          have := ih st2 hrea
          rw [hrest] at this
          exact this

theorem item_output_of_retrievable (env : Env) (np : LarkParser)
    (item : SourceItem) (h : retrievable item = true) :
    item_output env np item = some (unit_pair env np item) := by
  simp [item_output, h]

theorem item_output_of_not_retrievable (env : Env) (np : LarkParser)
    (item : SourceItem) (h : retrievable item = false) :
    item_output env np item = none := by
  simp [item_output, h]

theorem filterMap_item_output_of_retrievable (env : Env) (np : LarkParser)
    (items : List (String × SourceItem))
    (h : ∀ kv ∈ items, retrievable kv.2 = true) :
    items.filterMap (fun kv => item_output env np kv.2)
      = items.map (fun kv => unit_pair env np kv.2) := by
  induction items with
  | nil => rfl
  | cons kv rest ih =>
    rw [List.filterMap_cons, List.map_cons,
      item_output_of_retrievable env np kv.2 (h kv (List.mem_cons_self kv rest)),
      ih (fun x hx => h x (List.mem_cons_of_mem kv hx))]

theorem process_source_item_skip (env : Env) (np : LarkParser)
    (item : SourceItem) (st : PState) (h : retrievable item = false) :
    process_source_item env np item st = (st, none) := by
  unfold process_source_item
  rcases item with ⟨fn, acc, src⟩
  cases acc with
  | false => rfl
  | true =>
    cases src with
    | none => rfl
    | some s =>
      simp [retrievable] at h
      simp [h]

theorem parse_project_core_snd (env : Env) (np : LarkParser)
    (plcs : List Plc) (st : PState) (h : Reachable np st) :
    (parse_project_core env np plcs st).2
      = (project_units ⟨plcs⟩).filterMap (fun kv => item_output env np kv.2) := by
  induction plcs generalizing st with
  | nil => rfl
  | cons plc rest ih =>
    unfold parse_project_core
    have hsnd := parse_project_items_snd env np (plc_source_items plc) st h
    have hrea := parse_project_items_reachable env np (plc_source_items plc) st h
    cases hpi : parse_project_items env np (plc_source_items plc) st with
    | mk st2 outs =>
      rw [hpi] at hsnd hrea
      dsimp at hsnd hrea
      dsimp only
      cases hrest : parse_project_core env np rest st2 with
      | mk st3 outs2 =>
        have := ih st2 hrea
        rw [hrest] at this
        dsimp at this ⊢
        rw [hsnd, this]
        simp [project_units, List.filterMap_append]

theorem parse_project_core_reachable (env : Env) (np : LarkParser)
    (plcs : List Plc) (st : PState) (h : Reachable np st) :
    Reachable np (parse_project_core env np plcs st).1 := by
  induction plcs generalizing st with
  | nil => exact h
  | cons plc rest ih =>
    unfold parse_project_core
    have hrea := parse_project_items_reachable env np (plc_source_items plc) st h
    cases hpi : parse_project_items env np (plc_source_items plc) st with
    | mk st2 outs =>
      rw [hpi] at hrea
      dsimp at hrea
      dsimp only
      cases hrest : parse_project_core env np rest st2 with
      | mk st3 outs2 =>
        have := ih st2 hrea
        rw [hrest] at this
        exact this

theorem parse_project_snd (env : Env) (np : LarkParser) (path : String)
    (st : PState) (h : Reachable np st)
    (hsuf : lowerString (pathSuffix path) = ".tsproj") :
    (parse_project env np path st).2
      = .ok ((project_units (env.read_project path)).filterMap
          (fun kv => item_output env np kv.2)) := by
  unfold parse_project
  rw [if_pos hsuf]
  have := parse_project_core_snd env np (env.read_project path).plcs st h
  cases hc : parse_project_core env np (env.read_project path).plcs st with
  | mk st2 outs =>
    rw [hc] at this
    dsimp at this ⊢
    rw [this]

theorem getParser_calls_cached (np : LarkParser) (n : Nat) (b : Nat) :
    getParser_calls np n ⟨some np, b⟩ = (⟨some np, b⟩, List.replicate n np) := by
  induction n with
  | zero => rfl
  | succ n ih =>
    unfold getParser_calls
    rw [show getParser np ⟨some np, b⟩ = (⟨some np, b⟩, np) from rfl]
    dsimp only
    rw [ih]
    rfl

/-- C3: the shared engine is lazily initialized and built exactly once: over
any nonempty sequence of `get_parser` calls starting from the unset global,
the engine constructor runs exactly on the first call (the build counter ends
at 1), every call returns the same single instance, and the global holds that
instance afterwards. -/
theorem c3_parser_built_once (np : LarkParser) (n : Nat) (h : 1 ≤ n) :
    getParser_calls np n ⟨none, 0⟩ = (⟨some np, 1⟩, List.replicate n np) ∧
    (getParser_calls np n ⟨none, 0⟩).1.builds = 1 ∧
    ∀ p ∈ (getParser_calls np n ⟨none, 0⟩).2, p = np := by
  obtain ⟨m, rfl⟩ : ∃ m, n = m + 1 := ⟨n - 1, (Nat.succ_pred_eq_of_pos h).symm⟩
  have hmain : getParser_calls np (m + 1) ⟨none, 0⟩
      = (⟨some np, 1⟩, List.replicate (m + 1) np) := by
    unfold getParser_calls
    rw [show getParser np ⟨none, 0⟩ = (⟨some np, 1⟩, np) from rfl]
    dsimp only
    rw [getParser_calls_cached np m 1]
    rfl
  refine ⟨hmain, by rw [hmain], ?_⟩
  rw [hmain]
  intro p hp
  exact List.eq_of_mem_replicate hp

/-- C3 witness: three successive calls from the unset global build once and
always return the same instance. -/
theorem c3_parser_built_once_witness :
    1 ≤ 3 ∧
    (getParser_calls demoParser 3 ⟨none, 0⟩
        = (⟨some demoParser, 1⟩, List.replicate 3 demoParser) ∧
      (getParser_calls demoParser 3 ⟨none, 0⟩).1.builds = 1 ∧
      ∀ p ∈ (getParser_calls demoParser 3 ⟨none, 0⟩).2, p = demoParser) :=
  ⟨by omega, c3_parser_built_once demoParser 3 (by omega)⟩

theorem parse_source_code_some_snd (env : Env) (np : LarkParser)
    (src fn : String) (pre : List (String → Except ParseError String))
    (p : LarkParser) (tr : Bool) (st st2 : PState) :
    (parse_source_code env np src fn pre (some p) tr st).2
      = (parse_source_code env np src fn pre (some p) tr st2).2 := by
  unfold parse_source_code
  dsimp only
  repeat' split
  all_goals rfl

/-- C9: a call to `parse_source_code` with an explicitly supplied parser
instance leaves the module global `_PARSER` (and the `new_parser` invocation
count) unchanged, and its outcome does not depend on that global state at
all — only the supplied instance is used. -/
theorem c9_explicit_parser_frame (env : Env) (np : LarkParser)
    (src fn : String) (pre : List (String → Except ParseError String))
    (p : LarkParser) (tr : Bool) (st st2 : PState) :
    (parse_source_code env np src fn pre (some p) tr st).1 = st ∧
    (parse_source_code env np src fn pre (some p) tr st).2
      = (parse_source_code env np src fn pre (some p) tr st2).2 :=
  ⟨parse_source_code_some_fst env np src fn pre p tr st,
   parse_source_code_some_snd env np src fn pre p tr st st2⟩

/-- C7: a unit whose source is not retrievable (no `get_source_code`
accessor, or a falsy retrieved text) is silently omitted from the stream —
removing it from the enumeration changes neither the yielded pairs nor the
final parser state, so the remaining units are unaffected. -/
theorem c7_unretrievable_unit_skipped (env : Env) (np : LarkParser)
    (st : PState) (pre post : List (String × SourceItem)) (k : String)
    (item : SourceItem) (h : retrievable item = false) :
    parse_project_items env np (pre ++ (k, item) :: post) st
      = parse_project_items env np (pre ++ post) st := by
  induction pre generalizing st with
  | nil =>
    simp only [List.nil_append, parse_project_items]
    rw [process_source_item_skip env np item st h]
  | cons kv rest ih =>
    obtain ⟨k2, item2⟩ := kv
    simp only [List.cons_append, parse_project_items]
    cases hpi : process_source_item env np item2 st with
    | mk st2 out =>
      cases out with
      | none => exact ih st2
      | some pair =>
        simp only [List.append_eq]
        rw [ih st2]

/-- C7 witness: a project slice where the middle unit has no retrievable
source yields exactly the pairs of the other two units. -/
theorem c7_unretrievable_unit_skipped_witness :
    retrievable (⟨"U2.TcPOU", true, none⟩ : SourceItem) = false ∧
    parse_project_items demoEnv demoParser
        ([("U1", demoItem "U1.TcPOU" "okay1")]
          ++ ("U2", (⟨"U2.TcPOU", true, none⟩ : SourceItem))
          :: [("U3", demoItem "U3.TcPOU" "okay3")]) ⟨none, 0⟩
      = parse_project_items demoEnv demoParser
          ([("U1", demoItem "U1.TcPOU" "okay1")]
            ++ [("U3", demoItem "U3.TcPOU" "okay3")]) ⟨none, 0⟩ :=
  ⟨by decide,
   c7_unretrievable_unit_skipped demoEnv demoParser ⟨none, 0⟩
     [("U1", demoItem "U1.TcPOU" "okay1")]
     [("U3", demoItem "U3.TcPOU" "okay3")]
     "U2" ⟨"U2.TcPOU", true, none⟩ (by decide)⟩

/-- C2: for every enumerated (retrievable) unit the Project Walker yields
exactly one pair — the stream is the unit list mapped to its single
per-unit pair, so it has one entry per unit in order — and each pair's
second component is a successful result or an error, never both. -/
theorem c2_one_pair_per_unit (env : Env) (np : LarkParser) (st : PState)
    (h : Reachable np st) (items : List (String × SourceItem))
    (hall : ∀ kv ∈ items, retrievable kv.2 = true) :
    (parse_project_items env np items st).2
      = items.map (fun kv => unit_pair env np kv.2) ∧
    (parse_project_items env np items st).2.length = items.length ∧
    ∀ pair ∈ (parse_project_items env np items st).2,
      ((∃ r, pair.2 = Except.ok r) ∨ (∃ e, pair.2 = Except.error e)) ∧
        ¬ ((∃ r, pair.2 = Except.ok r) ∧ (∃ e, pair.2 = Except.error e)) := by
  have hmain : (parse_project_items env np items st).2
      = items.map (fun kv => unit_pair env np kv.2) := by
    rw [parse_project_items_snd env np items st h,
      filterMap_item_output_of_retrievable env np items hall]
  refine ⟨hmain, by rw [hmain, List.length_map], ?_⟩
  intro pair _
  cases hp : pair.2 with
  | ok r =>
    exact ⟨Or.inl ⟨r, rfl⟩, by rintro ⟨⟨r1, h1⟩, e1, h2⟩; exact Except.noConfusion h2⟩
  | error e =>
    exact ⟨Or.inr ⟨e, rfl⟩, by rintro ⟨⟨r1, h1⟩, e1, h2⟩; exact Except.noConfusion h1⟩

/-- C2 witness: a two-unit enumeration (one good, one malformed) yields
exactly one pair per unit, each pair being ok or error and never both. -/
theorem c2_one_pair_per_unit_witness :
    Reachable demoParser ⟨none, 0⟩ ∧
    (∀ kv ∈ [("U1", demoItem "U1.TcPOU" "okay1"),
             ("U2", demoItem "U2.TcPOU" "MALFORMED")], retrievable kv.2 = true) ∧
    ((parse_project_items demoEnv demoParser
        [("U1", demoItem "U1.TcPOU" "okay1"),
         ("U2", demoItem "U2.TcPOU" "MALFORMED")] ⟨none, 0⟩).2
      = [("U1", demoItem "U1.TcPOU" "okay1"),
         ("U2", demoItem "U2.TcPOU" "MALFORMED")].map
          (fun kv => unit_pair demoEnv demoParser kv.2) ∧
     (parse_project_items demoEnv demoParser
        [("U1", demoItem "U1.TcPOU" "okay1"),
         ("U2", demoItem "U2.TcPOU" "MALFORMED")] ⟨none, 0⟩).2.length
      = ([("U1", demoItem "U1.TcPOU" "okay1"),
          ("U2", demoItem "U2.TcPOU" "MALFORMED")] : List (String × SourceItem)).length ∧
     ∀ pair ∈ (parse_project_items demoEnv demoParser
        [("U1", demoItem "U1.TcPOU" "okay1"),
         ("U2", demoItem "U2.TcPOU" "MALFORMED")] ⟨none, 0⟩).2,
      ((∃ r, pair.2 = Except.ok r) ∨ (∃ e, pair.2 = Except.error e)) ∧
        ¬ ((∃ r, pair.2 = Except.ok r) ∧ (∃ e, pair.2 = Except.error e))) :=
  ⟨Or.inl rfl, by decide,
   c2_one_pair_per_unit demoEnv demoParser ⟨none, 0⟩ (Or.inl rfl)
     [("U1", demoItem "U1.TcPOU" "okay1"),
      ("U2", demoItem "U2.TcPOU" "MALFORMED")] (by decide)⟩

/-- C1: when the parse of one unit raises an error, `parse_project` yields
that unit's identifier paired with the (traceback-annotated) error and still
yields exactly one pair for every other unit, in enumeration order: for a
project whose units split as `pre`, one failing unit, and `post`, the stream
is the pairs of `pre`, then the error pair, then the pairs of `post`. -/
theorem c1_failing_unit_does_not_abort (env : Env) (np : LarkParser)
    (st : PState) (h : Reachable np st) (path : String)
    (hsuf : lowerString (pathSuffix path) = ".tsproj")
    (pre post : List (String × SourceItem)) (k : String) (item : SourceItem)
    (e : ParseError)
    (hunits : project_units (env.read_project path) = pre ++ (k, item) :: post)
    (hpre : ∀ kv ∈ pre, retrievable kv.2 = true)
    (hpost : ∀ kv ∈ post, retrievable kv.2 = true)
    (hitem : retrievable item = true)
    (herr : parse_source_code_result env np (item.sourceCode.getD "")
        item.filename DEFAULT_PREPROCESSORS true = .error e) :
    (parse_project env np path st).2
      = .ok (pre.map (fun kv => unit_pair env np kv.2)
          ++ (item.filename, .error (setTraceback e))
          :: post.map (fun kv => unit_pair env np kv.2)) := by
  rw [parse_project_snd env np path st h hsuf, hunits]
  have hpair : unit_pair env np item = (item.filename, .error (setTraceback e)) := by
    unfold unit_pair
    rw [herr]
  simp only [List.filterMap_append, List.filterMap_cons,
    item_output_of_retrievable env np item hitem,
    filterMap_item_output_of_retrievable env np pre hpre,
    filterMap_item_output_of_retrievable env np post hpost, hpair]

/-- C1 witness: the three-unit project of `demoEnv3`, whose second unit is
malformed, streams three pairs — first and third successful, second the
error with its identifier. -/
theorem c1_failing_unit_does_not_abort_witness :
    retrievable (demoItem "U2.TcPOU" "MALFORMED") = true ∧
    parse_source_code_result demoEnv3 demoParser "MALFORMED" "U2.TcPOU"
        DEFAULT_PREPROCESSORS true = .error { msg := "UnexpectedToken" } ∧
    (parse_project demoEnv3 demoParser "proj.tsproj" ⟨none, 0⟩).2
      = .ok ([("U1", demoItem "U1.TcPOU" "okay1")].map
            (fun kv => unit_pair demoEnv3 demoParser kv.2)
          ++ ("U2.TcPOU", .error (setTraceback { msg := "UnexpectedToken" }))
          :: [("U3", demoItem "U3.TcPOU" "okay3")].map
            (fun kv => unit_pair demoEnv3 demoParser kv.2)) :=
  ⟨by decide, by decide,
   c1_failing_unit_does_not_abort demoEnv3 demoParser ⟨none, 0⟩ (Or.inl rfl)
     "proj.tsproj" (by decide)
     [("U1", demoItem "U1.TcPOU" "okay1")]
     [("U3", demoItem "U3.TcPOU" "okay3")]
     "U2" (demoItem "U2.TcPOU" "MALFORMED") { msg := "UnexpectedToken" }
     rfl (by decide) (by decide) (by decide) (by decide)⟩

/-- C4 (amended): when any stage of `parse_source_code` fails —
preprocessing, comment extraction, grammar parse, or transform — the
function fails by propagating that stage's structured error to its
immediate caller unchanged; `parse_source_code` itself adds no identifier
annotation to the error (attribution happens in callers such as
`parse_project`, which pair the error with the unit's identifier). -/
theorem c4_stage_errors_propagate (env : Env) (np : LarkParser)
    (src fn : String) (pre : List (String → Except ParseError String))
    (e : ParseError) :
    (applyPreprocessors pre src = .error e →
      ∀ tr, parse_source_code_result env np src fn pre tr = .error e) ∧
    (∀ processed, applyPreprocessors pre src = .ok processed →
      env.find_and_clean_comments processed = .error e →
      ∀ tr, parse_source_code_result env np src fn pre tr = .error e) ∧
    (∀ processed comments processed2,
      applyPreprocessors pre src = .ok processed →
      env.find_and_clean_comments processed = .ok (comments, processed2) →
      np.parseFun processed2 = .error e →
      ∀ tr, parse_source_code_result env np src fn pre tr = .error e) ∧
    (∀ processed comments processed2 tree,
      applyPreprocessors pre src = .ok processed →
      env.find_and_clean_comments processed = .ok (comments, processed2) →
      np.parseFun processed2 = .ok tree →
      env.grammarTransform comments fn src tree = .error e →
      parse_source_code_result env np src fn pre true = .error e) := by
  refine ⟨?_, ?_, ?_, ?_⟩
  · intro h tr
    simp [parse_source_code_result, parse_source_code, h]
  · intro processed h1 h2 tr
    simp [parse_source_code_result, parse_source_code, h1, h2]
  · intro processed comments processed2 h1 h2 h3 tr
    simp [parse_source_code_result, parse_source_code, h1, h2, h3]
  · intro processed comments processed2 tree h1 h2 h3 h4
    simp [parse_source_code_result, parse_source_code, h1, h2, h3, h4]

/-- C4 witness: each of the four stage-failure propagation facts exercised
on a concrete failing grammar stage (the other stages' instances follow the
same application shape). -/
theorem c4_stage_errors_propagate_witness :
    applyPreprocessors DEFAULT_PREPROCESSORS "MALFORMED" = .ok "MALFORMED" ∧
    demoEnv.find_and_clean_comments "MALFORMED" = .ok ([], "MALFORMED") ∧
    demoParser.parseFun "MALFORMED" = .error { msg := "UnexpectedToken" } ∧
    parse_source_code_result demoEnv demoParser "MALFORMED" "unit1"
        DEFAULT_PREPROCESSORS true = .error { msg := "UnexpectedToken" } :=
  ⟨by decide, by decide, by decide,
   (c4_stage_errors_propagate demoEnv demoParser "MALFORMED" "unit1"
      DEFAULT_PREPROCESSORS { msg := "UnexpectedToken" }).2.2.1
     "MALFORMED" [] "MALFORMED" (by decide) (by decide) (by decide) true⟩

/-- C4 counterexample: the grammar-stage error that `parse_source_code`
propagates for unit "unit1" carries no identifier annotation at all — the
error is re-raised verbatim, not annotated with the unit's identifier. -/
theorem c4_no_identifier_annotation :
    (parse_source_code demoEnv demoParser "MALFORMED" "unit1"
        DEFAULT_PREPROCESSORS none true ⟨none, 0⟩).2
      = .error { msg := "UnexpectedToken", fn := none, traceback := none } ∧
    ({ msg := "UnexpectedToken", fn := none, traceback := none } : ParseError).fn
      ≠ some "unit1" :=
  ⟨by decide, by decide⟩

theorem applyPreprocessors_liftPure (fs : List (String → String))
    (src : String) :
    applyPreprocessors (fs.map liftPure) src
      = .ok (fs.foldl (fun s f => f s) src) := by
  induction fs generalizing src with
  | nil => rfl
  | cons f rest ih =>
    simp only [List.map_cons, applyPreprocessors, liftPure, List.foldl_cons]
    exact ih (f src)

/-- C6: the preprocessors run before comment extraction, in the given order,
each receiving the previous stage's output text (the composite is a left
fold); the outcome of `parse_source_code` depends on the comment extractor
only through its value at the fully preprocessed text; the default
preprocessor list is empty and leaves the extractor's input unchanged. -/
theorem c6_preprocessors_in_order (env : Env) (np : LarkParser)
    (src fn : String) (fs : List (String → String))
    (parser : Option LarkParser) (tr : Bool) (st : PState)
    (g1 g2 : String → Except ParseError (List String × String))
    (hg : g1 (fs.foldl (fun s f => f s) src)
        = g2 (fs.foldl (fun s f => f s) src)) :
    applyPreprocessors (fs.map liftPure) src
      = .ok (fs.foldl (fun s f => f s) src) ∧
    DEFAULT_PREPROCESSORS = ([] : List (String → Except ParseError String)) ∧
    applyPreprocessors DEFAULT_PREPROCESSORS src = .ok src ∧
    parse_source_code { env with find_and_clean_comments := g1 } np src fn
        (fs.map liftPure) parser tr st
      = parse_source_code { env with find_and_clean_comments := g2 } np src fn
        (fs.map liftPure) parser tr st := by
  refine ⟨applyPreprocessors_liftPure fs src, rfl, rfl, ?_⟩
  unfold parse_source_code
  rw [applyPreprocessors_liftPure fs src]
  dsimp only
  rw [hg]

/-- C6 witness: two pure preprocessors applied in order; the extractor
receives the composed text, and equal extractors give equal outcomes. -/
theorem c6_preprocessors_in_order_witness :
    demoEnv.find_and_clean_comments
        ([fun s => s ++ "A", fun s => s ++ "B"].foldl (fun s f => f s) "x")
      = demoEnv.find_and_clean_comments
        ([fun s => s ++ "A", fun s => s ++ "B"].foldl (fun s f => f s) "x") ∧
    applyPreprocessors ([fun s => s ++ "A", fun s => s ++ "B"].map liftPure) "x"
      = .ok ([fun s => s ++ "A", fun s => s ++ "B"].foldl (fun s f => f s) "x") ∧
    parse_source_code
        { demoEnv with find_and_clean_comments := demoEnv.find_and_clean_comments }
        demoParser "x" "unit1"
        ([fun s => s ++ "A", fun s => s ++ "B"].map liftPure) none true ⟨none, 0⟩
      = parse_source_code
        { demoEnv with find_and_clean_comments := demoEnv.find_and_clean_comments }
        demoParser "x" "unit1"
        ([fun s => s ++ "A", fun s => s ++ "B"].map liftPure) none true ⟨none, 0⟩ :=
  ⟨rfl,
   (c6_preprocessors_in_order demoEnv demoParser "x" "unit1"
      [fun s => s ++ "A", fun s => s ++ "B"] none true ⟨none, 0⟩
      demoEnv.find_and_clean_comments demoEnv.find_and_clean_comments rfl).1,
   (c6_preprocessors_in_order demoEnv demoParser "x" "unit1"
      [fun s => s ++ "A", fun s => s ++ "B"] none true ⟨none, 0⟩
      demoEnv.find_and_clean_comments demoEnv.find_and_clean_comments rfl).2.2.2⟩

/-- C5: summary lookup walks the cached units in input order and returns the
first matching function-block record — duplicate names across units are
never merged, the earliest unit wins — and raises a `KeyError` naming the
queried name when no unit contains it. -/
theorem c5_find_by_name_first_match (name : String) :
    (∀ (pre post : List (String × CodeSummary)) (k : String)
        (cs : CodeSummary) (fb : FunctionBlockSummary),
      (∀ kv ∈ pre, function_blocks_lookup kv.2 name = none) →
      function_blocks_lookup cs name = some fb →
      find_by_name (pre ++ (k, cs) :: post) name = .ok fb) ∧
    (∀ cache : List (String × CodeSummary),
      (∀ kv ∈ cache, function_blocks_lookup kv.2 name = none) →
      find_by_name cache name
        = .error { msg := "KeyError: " ++ name ++ " not found" }) := by
  constructor
  · intro pre post k cs fb
    induction pre with
    | nil =>
      intro _ hcs
      simp [find_by_name, hcs]
    | cons kv rest ih =>
      intro hpre hcs
      obtain ⟨k2, cs2⟩ := kv
      have h2 : function_blocks_lookup cs2 name = none :=
        hpre (k2, cs2) (List.mem_cons_self _ _)
      simp only [List.cons_append, find_by_name, h2]
      exact ih (fun x hx => hpre x (List.mem_cons_of_mem _ hx)) hcs
  · intro cache
    induction cache with
    | nil => intro _; rfl
    | cons kv rest ih =>
      intro hall
      obtain ⟨k2, cs2⟩ := kv
      have h2 : function_blocks_lookup cs2 name = none :=
        hall (k2, cs2) (List.mem_cons_self _ _)
      simp only [find_by_name, h2]
      exact ih (fun x hx => hall x (List.mem_cons_of_mem _ hx))

/-- C5 witness: two cached units both defining FB_Motor — the lookup
returns the first unit's record verbatim, not a merge — and a miss raises
the `KeyError`. -/
theorem c5_find_by_name_first_match_witness :
    function_blocks_lookup
        ⟨[("FB_Motor", ⟨"FB_Motor", [("x", "INT")], ["Start", "Stop"], []⟩)]⟩
        "FB_Motor"
      = some ⟨"FB_Motor", [("x", "INT")], ["Start", "Stop"], []⟩ ∧
    find_by_name
        [("a.tsproj",
          ⟨[("FB_Motor", ⟨"FB_Motor", [("x", "INT")], ["Start", "Stop"], []⟩)]⟩),
         ("b.tsproj",
          ⟨[("FB_Motor", ⟨"FB_Motor", [], ["Other"], []⟩)]⟩)]
        "FB_Motor"
      = .ok ⟨"FB_Motor", [("x", "INT")], ["Start", "Stop"], []⟩ ∧
    find_by_name
        [("a.tsproj",
          ⟨[("FB_Motor", ⟨"FB_Motor", [("x", "INT")], ["Start", "Stop"], []⟩)]⟩),
         ("b.tsproj",
          ⟨[("FB_Motor", ⟨"FB_Motor", [], ["Other"], []⟩)]⟩)]
        "Missing"
      = .error { msg := "KeyError: " ++ "Missing" ++ " not found" } :=
  ⟨by decide,
   (c5_find_by_name_first_match "FB_Motor").1 []
     [("b.tsproj", ⟨[("FB_Motor", ⟨"FB_Motor", [], ["Other"], []⟩)]⟩)]
     "a.tsproj"
     ⟨[("FB_Motor", ⟨"FB_Motor", [("x", "INT")], ["Start", "Stop"], []⟩)]⟩
     ⟨"FB_Motor", [("x", "INT")], ["Start", "Stop"], []⟩
     (by decide) (by decide),
   (c5_find_by_name_first_match "Missing").2
     [("a.tsproj",
       ⟨[("FB_Motor", ⟨"FB_Motor", [("x", "INT")], ["Start", "Stop"], []⟩)]⟩),
      ("b.tsproj",
       ⟨[("FB_Motor", ⟨"FB_Motor", [], ["Other"], []⟩)]⟩)]
     (by decide)⟩

/-- C8: summarization is deterministic — two calls of `summarize` on the
same immutable input produce index structures with identical contents,
identical keys and identical ordering (the builder is a pure projection of
its input). -/
theorem c8_summarize_deterministic (a b : SourceCode) (h : a = b) :
    summarize a = summarize b ∧
    (summarize a).function_blocks = (summarize b).function_blocks ∧
    (summarize a).function_blocks.map Prod.fst
      = (summarize b).function_blocks.map Prod.fst := by
  subst h
  exact ⟨rfl, rfl, rfl⟩

/-- C8 witness: a concrete source unit summarized twice gives identical
indexes, keys and order. -/
theorem c8_summarize_deterministic_witness :
    (⟨[.functionBlock "FB_Motor" [("x", "INT")] ["Start", "Stop"] [],
       .other "comment"]⟩ : SourceCode)
      = ⟨[.functionBlock "FB_Motor" [("x", "INT")] ["Start", "Stop"] [],
          .other "comment"]⟩ ∧
    (summarize ⟨[.functionBlock "FB_Motor" [("x", "INT")] ["Start", "Stop"] [],
        .other "comment"]⟩
      = summarize ⟨[.functionBlock "FB_Motor" [("x", "INT")] ["Start", "Stop"] [],
          .other "comment"]⟩ ∧
     (summarize ⟨[.functionBlock "FB_Motor" [("x", "INT")] ["Start", "Stop"] [],
         .other "comment"]⟩).function_blocks
      = (summarize ⟨[.functionBlock "FB_Motor" [("x", "INT")] ["Start", "Stop"] [],
          .other "comment"]⟩).function_blocks ∧
     (summarize ⟨[.functionBlock "FB_Motor" [("x", "INT")] ["Start", "Stop"] [],
         .other "comment"]⟩).function_blocks.map Prod.fst
      = (summarize ⟨[.functionBlock "FB_Motor" [("x", "INT")] ["Start", "Stop"] [],
          .other "comment"]⟩).function_blocks.map Prod.fst) :=
  ⟨rfl,
   c8_summarize_deterministic
     ⟨[.functionBlock "FB_Motor" [("x", "INT")] ["Start", "Stop"] [],
       .other "comment"]⟩
     ⟨[.functionBlock "FB_Motor" [("x", "INT")] ["Start", "Stop"] [],
       .other "comment"]⟩ rfl⟩

theorem filterMap_item_output_error (env : Env) (np : LarkParser)
    (units : List (String × SourceItem))
    (pair : String × Except ParseError ParseResult)
    (hmem : pair ∈ units.filterMap (fun kv => item_output env np kv.2))
    (e : ParseError) (he : pair.2 = .error e) :
    ∃ kv ∈ units, ∃ e0 : ParseError,
      pair.1 = kv.2.filename ∧
      parse_source_code_result env np (kv.2.sourceCode.getD "")
        kv.2.filename DEFAULT_PREPROCESSORS true = .error e0 ∧
      e = setTraceback e0 := by
  obtain ⟨kv, hkv, hout⟩ := List.mem_filterMap.mp hmem
  refine ⟨kv, hkv, ?_⟩
  unfold item_output at hout
  by_cases hr : retrievable kv.2
  · rw [if_pos hr] at hout
    have hup : unit_pair env np kv.2 = pair := Option.some.inj hout
    unfold unit_pair at hup
    cases hres : parse_source_code_result env np (kv.2.sourceCode.getD "")
        kv.2.filename DEFAULT_PREPROCESSORS true with
    | ok res =>
      rw [hres] at hup
      rw [← hup] at he
      exact Except.noConfusion he
    | error e0 =>
      rw [hres] at hup
      rw [← hup] at he
      exact ⟨e0, by rw [← hup], rfl, (Except.error.inj he).symm⟩
  · rw [if_neg hr] at hout
    exact Option.noConfusion hout

theorem parse_single_file_reachable (env : Env) (np : LarkParser)
    (fn : String) (st : PState) (h : Reachable np st) :
    Reachable np (parse_single_file env np fn st).1 := by
  unfold parse_single_file
  cases hg : env.get_source_code fn with
  | error e => exact h
  | ok src =>
    exact parse_source_code_reachable env np src fn DEFAULT_PREPROCESSORS
      none true st h

theorem parse_single_file_snd (env : Env) (np : LarkParser)
    (fn : String) (st : PState) (h : Reachable np st) :
    (parse_single_file env np fn st).2 = parse_single_file_result env np fn := by
  unfold parse_single_file parse_single_file_result
  cases hg : env.get_source_code fn with
  | error e => rfl
  | ok src =>
    exact parse_source_code_none_snd env np src fn DEFAULT_PREPROCESSORS
      true st h

theorem parse_project_reachable (env : Env) (np : LarkParser)
    (path : String) (st : PState) (h : Reachable np st) :
    Reachable np (parse_project env np path st).1 := by
  unfold parse_project
  split
  · have := parse_project_core_reachable env np (env.read_project path).plcs st h
    cases hc : parse_project_core env np (env.read_project path).plcs st with
    | mk st2 outs =>
      rw [hc] at this
      exact this
  · exact h

theorem parse_one_file_reachable (env : Env) (np : LarkParser)
    (fn : String) (st : PState) (h : Reachable np st) :
    Reachable np (parse_one_file env np fn st).1 := by
  unfold parse_one_file
  split
  · have := parse_project_reachable env np fn st h
    cases hp : parse_project env np fn st with
    | mk st2 r =>
      rw [hp] at this
      cases r <;> exact this
  · have := parse_single_file_reachable env np fn st h
    cases hp : parse_single_file env np fn st with
    | mk st2 r =>
      rw [hp] at this
      cases r <;> exact this

theorem parse_project_ok_error_mem (env : Env) (np : LarkParser)
    (path : String) (st : PState) (h : Reachable np st)
    (st2 : PState) (outs : List (String × Except ParseError ParseResult))
    (hp : parse_project env np path st = (st2, .ok outs))
    (pair : String × Except ParseError ParseResult) (hmem : pair ∈ outs)
    (e : ParseError) (he : pair.2 = .error e) :
    ∃ kv ∈ project_units (env.read_project path), ∃ e0 : ParseError,
      pair.1 = kv.2.filename ∧
      parse_source_code_result env np (kv.2.sourceCode.getD "")
        kv.2.filename DEFAULT_PREPROCESSORS true = .error e0 ∧
      e = setTraceback e0 := by
  have hsnd : (parse_project env np path st).2 = .ok outs := by rw [hp]
  unfold parse_project at hsnd
  by_cases hs : lowerString (pathSuffix path) = ".tsproj"
  · rw [if_pos hs] at hsnd
    have hcore := parse_project_core_snd env np (env.read_project path).plcs st h
    cases hc : parse_project_core env np (env.read_project path).plcs st with
    | mk st3 outs2 =>
      rw [hc] at hsnd hcore
      dsimp at hsnd hcore
      have : outs2 = outs := Except.ok.inj hsnd
      rw [this] at hcore
      rw [hcore] at hmem
      exact filterMap_item_output_error env np _ pair hmem e he
  · rw [if_neg hs] at hsnd
    exact Except.noConfusion hsnd

theorem parse_one_file_error_mem (env : Env) (np : LarkParser)
    (fn : String) (st : PState) (h : Reachable np st)
    (pair : String × Except ParseError ParseResult)
    (hmem : pair ∈ (parse_one_file env np fn st).2)
    (e : ParseError) (he : pair.2 = .error e) :
    ∃ e0 : ParseError, e = setTraceback e0 ∧
      ((pair.1 = fn ∧ parse_single_file_result env np fn = .error e0) ∨
       (∃ kv ∈ project_units (env.read_project fn),
         pair.1 = kv.2.filename ∧
         parse_source_code_result env np (kv.2.sourceCode.getD "")
           kv.2.filename DEFAULT_PREPROCESSORS true = .error e0)) := by
  unfold parse_one_file at hmem
  by_cases hs : lowerString (pathSuffix fn) = ".tsproj"
  · rw [if_pos hs] at hmem
    cases hp : parse_project env np fn st with
    | mk st2 r =>
      rw [hp] at hmem
      cases r with
      | ok outs =>
        dsimp at hmem
        obtain ⟨kv, hkv, e0, h1, h2, heq⟩ :=
          parse_project_ok_error_mem env np fn st h st2 outs hp pair hmem e he
        exact ⟨e0, heq, Or.inr ⟨kv, hkv, h1, h2⟩⟩
      | error e2 =>
        have hok := parse_project_snd env np fn st h hs
        rw [hp] at hok
        exact Except.noConfusion hok
  · rw [if_neg hs] at hmem
    have hsnd := parse_single_file_snd env np fn st h
    cases hp : parse_single_file env np fn st with
    | mk st2 r =>
      rw [hp] at hmem hsnd
      dsimp at hsnd
      cases r with
      | ok res =>
        dsimp at hmem
        rw [List.mem_singleton] at hmem
        rw [hmem] at he
        exact Except.noConfusion he
      | error e2 =>
        dsimp at hmem
        rw [List.mem_singleton] at hmem
        rw [hmem] at he
        exact ⟨e2, (Except.error.inj he).symm,
          Or.inl ⟨by rw [hmem], hsnd.symm⟩⟩

theorem parse_files_error_mem (env : Env) (np : LarkParser)
    (fns : List String) (st : PState) (h : Reachable np st)
    (pair : String × Except ParseError ParseResult)
    (hmem : pair ∈ (parse_files env np fns st).2)
    (e : ParseError) (he : pair.2 = .error e) :
    ∃ fn ∈ fns, ∃ e0 : ParseError, e = setTraceback e0 ∧
      ((pair.1 = fn ∧ parse_single_file_result env np fn = .error e0) ∨
       (∃ kv ∈ project_units (env.read_project fn),
         pair.1 = kv.2.filename ∧
         parse_source_code_result env np (kv.2.sourceCode.getD "")
           kv.2.filename DEFAULT_PREPROCESSORS true = .error e0)) := by
  induction fns generalizing st with
  | nil => exact absurd hmem (List.not_mem_nil pair)
  | cons fn rest ih =>
    unfold parse_files at hmem
    cases hof : parse_one_file env np fn st with
    | mk st2 outs =>
      rw [hof] at hmem
      dsimp only at hmem
      cases hrest : parse_files env np rest st2 with
      | mk st3 outs2 =>
        rw [hrest] at hmem
        dsimp at hmem
        rcases List.mem_append.mp hmem with hmem1 | hmem2
        · have hin : pair ∈ (parse_one_file env np fn st).2 := by
            rw [hof]
            exact hmem1
          obtain ⟨e0, heq, hprov⟩ :=
            parse_one_file_error_mem env np fn st h pair hin e he
          exact ⟨fn, List.mem_cons_self fn rest, e0, heq, hprov⟩
        · have hrea := parse_one_file_reachable env np fn st h
          rw [hof] at hrea
          have hin : pair ∈ (parse_files env np rest st2).2 := by
            rw [hrest]
            exact hmem2
          obtain ⟨fn2, hfn2, e0, heq, hprov⟩ := ih st2 hrea hin
          exact ⟨fn2, List.mem_cons_of_mem fn hfn2, e0, heq, hprov⟩

/-- C10: every error yielded (rather than raised) by `parse_project` or by
the top-level `parse` generator is the caught exception itself — same
message, same prior identifier-annotation attribute — paired with the
failing unit's identifier (the project unit's filename, or the processed
file itself for a single-file parse), and carries a `traceback` attribute
equal to the formatted traceback captured at the point of failure. -/
theorem c10_yielded_errors_carry_traceback (env : Env) (np : LarkParser)
    (st : PState) (h : Reachable np st) (path : String) :
    (∀ st2 outs, parse_project env np path st = (st2, .ok outs) →
      ∀ pair ∈ outs, ∀ e : ParseError, pair.2 = .error e →
      ∃ kv ∈ project_units (env.read_project path), ∃ e0 : ParseError,
        pair.1 = kv.2.filename ∧
        parse_source_code_result env np (kv.2.sourceCode.getD "")
          kv.2.filename DEFAULT_PREPROCESSORS true = .error e0 ∧
        e = setTraceback e0 ∧ e.msg = e0.msg ∧ e.fn = e0.fn ∧
        e.traceback = some (format_exc e0)) ∧
    (∀ pair ∈ (parse env np path st).2, ∀ e : ParseError, pair.2 = .error e →
      ∃ e0 : ParseError, e = setTraceback e0 ∧ e.msg = e0.msg ∧
        e.fn = e0.fn ∧ e.traceback = some (format_exc e0) ∧
        ∃ fn ∈ parse_filenames env path,
          ((pair.1 = fn ∧ parse_single_file_result env np fn = .error e0) ∨
           (∃ kv ∈ project_units (env.read_project fn),
             pair.1 = kv.2.filename ∧
             parse_source_code_result env np (kv.2.sourceCode.getD "")
               kv.2.filename DEFAULT_PREPROCESSORS true = .error e0))) := by
  constructor
  · intro st2 outs hp pair hmem e he
    obtain ⟨kv, hkv, e0, h1, h2, h3⟩ :=
      parse_project_ok_error_mem env np path st h st2 outs hp pair hmem e he
    exact ⟨kv, hkv, e0, h1, h2, h3, by rw [h3]; rfl, by rw [h3]; rfl,
      by rw [h3]; rfl⟩
  · intro pair hmem e he
    have hmem2 : pair ∈ (parse_files env np (parse_filenames env path) st).2 :=
      hmem
    obtain ⟨fn, hfn, e0, heq, hprov⟩ :=
      parse_files_error_mem env np (parse_filenames env path) st h pair
        hmem2 e he
    exact ⟨e0, heq, by rw [heq]; rfl, by rw [heq]; rfl, by rw [heq]; rfl,
      fn, hfn, hprov⟩

/-- C10 witness: in the three-unit demo project parsed through the
top-level `parse`, the second unit's yielded error is the caught grammar
error with its traceback attribute set, paired with that failing unit's
filename. -/
theorem c10_yielded_errors_carry_traceback_witness :
    (("U2.TcPOU",
        Except.error (setTraceback { msg := "UnexpectedToken" }))
      ∈ (parse demoEnv3 demoParser "proj.tsproj" ⟨none, 0⟩).2) ∧
    (∃ e0 : ParseError, setTraceback { msg := "UnexpectedToken" }
        = setTraceback e0 ∧
      (setTraceback { msg := "UnexpectedToken" }).msg = e0.msg ∧
      (setTraceback { msg := "UnexpectedToken" }).fn = e0.fn ∧
      (setTraceback { msg := "UnexpectedToken" }).traceback
        = some (format_exc e0) ∧
      ∃ fn ∈ parse_filenames demoEnv3 "proj.tsproj",
        (("U2.TcPOU" = fn ∧
            parse_single_file_result demoEnv3 demoParser fn = .error e0) ∨
         (∃ kv ∈ project_units (demoEnv3.read_project fn),
           "U2.TcPOU" = kv.2.filename ∧
           parse_source_code_result demoEnv3 demoParser
             (kv.2.sourceCode.getD "") kv.2.filename
             DEFAULT_PREPROCESSORS true = .error e0))) :=
  ⟨by decide,
   (c10_yielded_errors_carry_traceback demoEnv3 demoParser ⟨none, 0⟩
      (Or.inl rfl) "proj.tsproj").2
     ("U2.TcPOU", Except.error (setTraceback { msg := "UnexpectedToken" }))
     (by decide) (setTraceback { msg := "UnexpectedToken" }) rfl⟩

end Blark
